import Mathlib

/-!
Verification of the transaction reconciliation core of the budget-app
repository, a shallow embedding of `src/app/lib/plaid.server.ts`
(`determineCategory` and `syncTransactions`) over explicit store state.

The store is modelled as lists of rows for the three tables the sync code
touches (`accounts`, `transactions`, `sync_cursors`).  The external
provider call and the fallibility of each store write are supplied by an
environment record, so that provider failures and store-write failures can
be expressed.  A thrown JavaScript exception is modelled by the `Res.err`
constructor, which keeps the state at the moment of the throw, because
store mutations already applied are not rolled back by a throw.
-/

namespace BudgetApp

/-- A provider (Plaid) transaction record as consumed by the sync code:
the external transaction identifier, the external account identifier,
a calendar date, a signed amount, the optional list of category labels,
and the display name used as the description. -/
structure PlaidTx where
  transaction_id : String
  account_id : String
  date : String
  amount : Rat
  category : Option (List String)
  name : String
  deriving DecidableEq

/-- A row of the `accounts` table, with the columns selected by
`syncTransactions` (`id, access_token, plaid_account_id, account_type`)
plus the `user_id` column used in the query filter. -/
structure Account where
  id : String
  user_id : String
  access_token : String
  plaid_account_id : String
  account_type : String
  deriving DecidableEq

/-- A row of the `transactions` table.  Manually entered rows carry no
external identifier (`plaid_transaction_id = none`); provider-sourced rows
carry `some`. -/
structure TransactionRow where
  user_id : String
  account_id : String
  plaid_transaction_id : Option String
  date : String
  amount : Rat
  category : String
  description : String
  deriving DecidableEq

/-- A row of the `sync_cursors` table, keyed by `(user_id, access_token)`. -/
structure CursorRow where
  user_id : String
  access_token : String
  cursor : Option String
  deriving DecidableEq

/-- The local store state: the three tables read or written by
`syncTransactions`, plus `cursorWrites`, a ghost event log that records one
entry per successful persistence of a sync cursor.  The log is not a table
of the store; it only makes the number of cursor writes observable. -/
structure DB where
  accounts : List Account
  transactions : List TransactionRow
  sync_cursors : List CursorRow
  cursorWrites : List (String × String × Option String)
  deriving DecidableEq

/-- The result of a stateful step: `ok` with the new state, or `err` with
the thrown message and the state at the moment of the throw. -/
inductive Res (α : Type) where
  | ok : α → Res α
  | err : String → α → Res α
  deriving DecidableEq

/-- The state carried by a result, whether or not an error was thrown. -/
def Res.state {α : Type} : Res α → α
  | .ok a => a
  | .err _ a => a

/-- True when no error was thrown. -/
def Res.isOk {α : Type} : Res α → Bool
  | .ok _ => true
  | .err _ _ => false

/-- One response of the provider incremental-changes operation
(`transactionsSync`): the added, modified and removed sets, the next
cursor, and the has-more flag. -/
structure Page where
  added : List PlaidTx
  modified : List PlaidTx
  removed : List String
  next_cursor : String
  has_more : Bool
  deriving DecidableEq

/-- External collaborators and fault injection: `provider` gives the
response of the provider call as a function of the access token and the
cursor; `accountsOk` says whether the accounts query succeeds; the
remaining flags say whether a given store write succeeds (`false` models
the store returning an error for that write). -/
structure Env where
  provider : String → Option String → Except String Page
  accountsOk : Bool
  insertOk : TransactionRow → Bool
  updateOk : String → String → Bool
  deleteOk : String → Bool
  cursorOk : String → String → Bool

/-- Lines 121 to 132 of `plaid.server.ts`: `determineCategory`.  The
source checks that the category list is non-null and includes the label
Transfer, then resolves income against spending from the sign of the
amount and the account type. -/
def determineCategory (tx : PlaidTx) (accountType : String) : String :=
  if (match tx.category with
      | some cats => cats.contains ("Transfer")
      | none => false) then "transfer"
  else if accountType = "depository" ∨ accountType = "investment" then
    (if tx.amount > 0 then "income" else "spending")
  else if accountType = "credit" then
    (if tx.amount > 0 then "spending" else "income")
  else "spending"

/-- Line 174: resolve the owning local account of a provider record by
its external account identifier. -/
def findAccount (accounts : List Account) (pid : String) : Option Account :=
  accounts.find? (fun a => decide (a.plaid_account_id = pid))

/-- Lines 177 to 185: the row inserted for an added record. -/
def mkRow (userId : String) (a : Account) (tx : PlaidTx) : TransactionRow :=
  { user_id := userId
    account_id := a.id
    plaid_transaction_id := some tx.transaction_id
    date := tx.date
    amount := tx.amount
    category := determineCategory tx a.account_type
    description := tx.name }

/-- Overwrite of the four value columns written by the modified-branch
update; the key columns are untouched. -/
def setVals (r : TransactionRow) (d : String) (am : Rat) (c de : String) : TransactionRow :=
  { r with date := d, amount := am, category := c, description := de }

/-- Lines 194 to 199: the store update of the modified branch.  Every row
matching both the external transaction identifier and the resolved local
account identifier has its value columns overwritten. -/
def updateTx (T : List TransactionRow) (ptid aid : String)
    (d : String) (am : Rat) (c de : String) : List TransactionRow :=
  T.map (fun r =>
    if r.plaid_transaction_id = some ptid ∧ r.account_id = aid
    then setVals r d am c de else r)

/-- Lines 206 to 209: the scoped delete of the removed branch.  A row is
deleted when it matches the external transaction identifier and its
account identifier is in the credential account-identifier list. -/
def deleteTx (T : List TransactionRow) (ptid : String)
    (accountIds : List String) : List TransactionRow :=
  T.filter (fun r =>
    decide (¬ (r.plaid_transaction_id = some ptid ∧ r.account_id ∈ accountIds)))

/-- Lines 172 to 187: the added-branch loop.  A record whose external
account identifier matches no local account is skipped; a matched record
is inserted as a new row; a store error aborts the page with a throw. -/
def processAdded (env : Env) (userId : String) (accounts : List Account) :
    List PlaidTx → List TransactionRow → Res (List TransactionRow)
  | [], T => .ok T
  | tx :: rest, T =>
    match findAccount accounts tx.account_id with
    | none => processAdded env userId accounts rest T
    | some a =>
      if env.insertOk (mkRow userId a tx) then
        processAdded env userId accounts rest (T ++ [mkRow userId a tx])
      else
        .err ("Failed to insert transaction " ++ tx.transaction_id) T

/-- Lines 189 to 201: the modified-branch loop.  A record whose external
account identifier matches no local account is skipped; a matched record
triggers the keyed update; a store error aborts the page with a throw. -/
def processModified (env : Env) (userId : String) (accounts : List Account) :
    List PlaidTx → List TransactionRow → Res (List TransactionRow)
  | [], T => .ok T
  | tx :: rest, T =>
    match findAccount accounts tx.account_id with
    | none => processModified env userId accounts rest T
    | some a =>
      if env.updateOk tx.transaction_id a.id then
        processModified env userId accounts rest
          (updateTx T tx.transaction_id a.id tx.date tx.amount
            (determineCategory tx a.account_type) tx.name)
      else
        .err ("Failed to update transaction " ++ tx.transaction_id) T

/-- Lines 203 to 211: the removed-branch loop over the removed external
transaction identifiers, each delete scoped to the given credential
account-identifier list. -/
def processRemoved (env : Env) (accountIds : List String) :
    List String → List TransactionRow → Res (List TransactionRow)
  | [], T => .ok T
  | rid :: rest, T =>
    if env.deleteOk rid then
      processRemoved env accountIds rest (deleteTx T rid accountIds)
    else
      .err ("Failed to delete transaction " ++ rid) T

/-- Line 204: the local identifiers of the accounts that belong to one
access token. -/
def credentialAccountIds (accounts : List Account) (accessToken : String) : List String :=
  (accounts.filter (fun a => decide (a.access_token = accessToken))).map (fun a => a.id)

/-- Lines 164 to 216: the paging loop for one access token, with explicit
fuel.  The source loop runs until the provider reports that no more pages
remain; fuel exhaustion is reported as an error and, like any other
mid-loop failure, leaves the cursor unpersisted. -/
def syncPages (env : Env) (userId accessToken : String) (accounts : List Account) :
    Nat → Option String → List TransactionRow → Res (Option String × List TransactionRow)
  | 0, cursor, T => .err ("paging loop did not terminate") (cursor, T)
  | fuel + 1, cursor, T =>
    match env.provider accessToken cursor with
    | .error m => .err m (cursor, T)
    | .ok page =>
      match processAdded env userId accounts page.added T with
      | .err m T2 => .err m (cursor, T2)
      | .ok T2 =>
        match processModified env userId accounts page.modified T2 with
        | .err m T3 => .err m (cursor, T3)
        | .ok T3 =>
          match processRemoved env (credentialAccountIds accounts accessToken) page.removed T3 with
          | .err m T4 => .err m (cursor, T4)
          | .ok T4 =>
            if page.has_more then
              syncPages env userId accessToken accounts fuel (some page.next_cursor) T4
            else
              .ok (some page.next_cursor, T4)

/-- Lines 153 to 161: read the cursor row through `.single()` — the stored
value when the key matches exactly one row, otherwise null (the source
ignores the error object of this query). -/
def readCursor (cs : List CursorRow) (userId accessToken : String) : Option String :=
  match cs.filter (fun c => decide (c.user_id = userId ∧ c.access_token = accessToken)) with
  | [c] => c.cursor
  | _ => none

/-- Lines 219 to 223: upsert of the cursor row on the conflict key
`(user_id, access_token)`: overwrite the existing row if one matches,
otherwise append a new row. -/
def upsertCursor (cs : List CursorRow) (userId accessToken : String)
    (cursor : Option String) : List CursorRow :=
  if cs.any (fun c => decide (c.user_id = userId ∧ c.access_token = accessToken)) then
    cs.map (fun c =>
      if c.user_id = userId ∧ c.access_token = accessToken
      then { c with cursor := cursor } else c)
  else
    cs ++ [{ user_id := userId, access_token := accessToken, cursor := cursor }]

/-- Lines 152 to 225, the body for one access token: read the cursor, run
the paging loop, and persist the final cursor only when the whole loop
succeeded.  A successful persistence appends one entry to the ghost write
log. -/
def syncCredential (env : Env) (fuel : Nat) (userId accessToken : String)
    (accounts : List Account) (db : DB) : Res DB :=
  match syncPages env userId accessToken accounts fuel
      (readCursor db.sync_cursors userId accessToken) db.transactions with
  | .err m (_, T) => .err m { db with transactions := T }
  | .ok (c, T) =>
    if env.cursorOk userId accessToken then
      .ok { db with
            transactions := T
            sync_cursors := upsertCursor db.sync_cursors userId accessToken c
            cursorWrites := db.cursorWrites ++ [(userId, accessToken, c)] }
    else
      .err ("Failed to update sync cursor") { db with transactions := T }

/-- Insertion into a JavaScript Set in iteration order: an element already
seen is dropped, a new element is kept and remembered. -/
def jsSetDedupAux (seen : List String) : List String → List String
  | [] => []
  | x :: xs =>
    if x ∈ seen then jsSetDedupAux seen xs
    else x :: jsSetDedupAux (x :: seen) xs

/-- Line 150: the JavaScript Set spread keeps the first occurrence of each
element, in order. -/
def jsSetDedup (l : List String) : List String :=
  jsSetDedupAux [] l

/-- Lines 152 to 225: the loop over the deduplicated access tokens; a
thrown error propagates out and the remaining tokens are not processed. -/
def syncAllTokens (env : Env) (fuel : Nat) (userId : String) (accounts : List Account) :
    List String → DB → Res DB
  | [], db => .ok db
  | tok :: rest, db =>
    match syncCredential env fuel userId tok accounts db with
    | .ok db2 => syncAllTokens env fuel userId accounts rest db2
    | .err m db2 => .err m db2

/-- The accounts of one user, as fetched by the accounts query of line
143 to 146. -/
def userAccounts (db : DB) (userId : String) : List Account :=
  db.accounts.filter (fun a => decide (a.user_id = userId))

/-- Lines 141 to 226: `syncTransactions`.  Fetch the accounts of the user
(fatal on failure), deduplicate their access tokens, and sync each access
token in turn. -/
def syncTransactions (env : Env) (fuel : Nat) (userId : String) (db : DB) : Res DB :=
  if env.accountsOk then
    syncAllTokens env fuel userId (userAccounts db userId)
      (jsSetDedup ((userAccounts db userId).map (fun a => a.access_token))) db
  else
    .err ("Failed to fetch accounts") db

/-! Concrete scenario data.  Credential `at1` of user `u` owns one
depository account; the provider answers the null cursor with a page that
adds `tx1` for amount 100, and answers cursor `c1` with a page that
modifies `tx1` to amount 80. -/

/-- The depository account of the end-to-end scenario. -/
def acctA1 : Account :=
  { id := "acc1", user_id := "u", access_token := "at1",
    plaid_account_id := "pa1", account_type := "depository" }

/-- The added record of the first page. -/
def tx1a : PlaidTx :=
  { transaction_id := "tx1", account_id := "pa1", date := "2024-01-01",
    amount := 100, category := none, name := "Deposit" }

/-- The modified record of the second page: the same external identifier,
amount 80. -/
def tx1b : PlaidTx := { tx1a with amount := 80 }

/-- First page: one added record, no more pages, next cursor `c1`. -/
def page1 : Page :=
  { added := [tx1a], modified := [], removed := [], next_cursor := "c1", has_more := false }

/-- Second page: one modified record, no more pages, next cursor `c2`. -/
def page2 : Page :=
  { added := [], modified := [tx1b], removed := [], next_cursor := "c2", has_more := false }

/-- Environment of the end-to-end scenario: the provider answers as above
and every store write succeeds. -/
def env7 : Env :=
  { provider := fun tok c =>
      if tok = "at1" ∧ c = none then .ok page1
      else if tok = "at1" ∧ c = some "c1" then .ok page2
      else .error ("unexpected request")
    accountsOk := true
    insertOk := fun _ => true
    updateOk := fun _ _ => true
    deleteOk := fun _ => true
    cursorOk := fun _ _ => true }

/-- Initial store: the linked account, no transactions, no cursor. -/
def db7 : DB :=
  { accounts := [acctA1], transactions := [], sync_cursors := [], cursorWrites := [] }

/-- The local row produced for `tx1` by the first sync. -/
def row1 : TransactionRow :=
  { user_id := "u", account_id := "acc1", plaid_transaction_id := some "tx1",
    date := "2024-01-01", amount := 100, category := "income", description := "Deposit" }

/-- Expected store after the first sync call. -/
def db7after1 : DB :=
  { accounts := [acctA1]
    transactions := [row1]
    sync_cursors := [{ user_id := "u", access_token := "at1", cursor := some "c1" }]
    cursorWrites := [("u", "at1", some "c1")] }

/-- Expected store after the second sync call. -/
def db7after2 : DB :=
  { accounts := [acctA1]
    transactions := [{ row1 with amount := 80 }]
    sync_cursors := [{ user_id := "u", access_token := "at1", cursor := some "c2" }]
    cursorWrites := [("u", "at1", some "c1"), ("u", "at1", some "c2")] }

/-- C7: end-to-end scenario.  From an empty store with no persisted cursor,
the first sync leaves exactly one row for `tx1` with amount 100 and
category income and persists cursor `c1`; the second sync leaves the same
single row updated to amount 80 and persists cursor `c2`. -/
theorem c7_end_to_end :
    syncTransactions env7 1 ("u") db7 = .ok db7after1 ∧
    syncTransactions env7 1 ("u") db7after1 = .ok db7after2 := by
  decide

/-- Store state after the first page of the scenario has been applied but
before its cursor was persisted: the mutation survived the interrupt, the
cursor did not. -/
def dbInterrupted : DB :=
  { accounts := [acctA1], transactions := [row1], sync_cursors := [], cursorWrites := [] }

/-- C1: evaluation of the code at the failing input.  A page whose added
mutation is already applied locally is re-received by a retry from the old
cursor; the added branch does a plain insert rather than an upsert on the
external transaction identifier, so the retry ends with two identical rows
for `tx1` instead of leaving the store as it was after the first
application. -/
theorem c1_retry_duplicates_added_row :
    (syncTransactions env7 1 ("u") dbInterrupted).state.transactions = [row1, row1] ∧
    ¬ ((syncTransactions env7 1 ("u") dbInterrupted).state.transactions
        = dbInterrupted.transactions) := by
  decide

/-! Scenario for the upsert claim: user `v` has one credit account, the
store already holds a provider-sourced row for external identifier `tx9`
with amount 5, and the provider delivers an added record with the same
identifier and amount 7. -/

/-- The credit account of the upsert scenario. -/
def acctB : Account :=
  { id := "acc2", user_id := "v", access_token := "bt1",
    plaid_account_id := "pb1", account_type := "credit" }

/-- The added record re-delivering external identifier `tx9`. -/
def txB : PlaidTx :=
  { transaction_id := "tx9", account_id := "pb1", date := "2024-02-02",
    amount := 7, category := none, name := "Coffee" }

/-- The provider-sourced row already present for `tx9`. -/
def rowB : TransactionRow :=
  { user_id := "v", account_id := "acc2", plaid_transaction_id := some "tx9",
    date := "2024-02-02", amount := 5, category := "spending", description := "Coffee" }

/-- Environment of the upsert scenario: the provider answers the null
cursor with the one added record and every store write succeeds. -/
def envB : Env :=
  { provider := fun tok c =>
      if tok = "bt1" ∧ c = none then
        .ok { added := [txB], modified := [], removed := [],
              next_cursor := "cb", has_more := false }
      else .error ("unexpected request")
    accountsOk := true
    insertOk := fun _ => true
    updateOk := fun _ _ => true
    deleteOk := fun _ => true
    cursorOk := fun _ _ => true }

/-- Initial store of the upsert scenario. -/
def dbB : DB :=
  { accounts := [acctB], transactions := [rowB], sync_cursors := [], cursorWrites := [] }

/-- C2: counterexample.  The claim says an added record whose external
identifier already has a local row overwrites that row, leaving one row
carrying the record values.  On this input the added branch inserts a
second row instead: two rows carry identifier `tx9` afterwards, and the
old row keeps amount 5. -/
theorem c2_counterexample_added_not_upsert :
    ¬ ((((syncTransactions envB 1 ("v") dbB).state.transactions.filter
          (fun r => decide (r.plaid_transaction_id = some "tx9"))).length = 1) ∧
       (∀ r ∈ (syncTransactions envB 1 ("v") dbB).state.transactions,
          r.plaid_transaction_id = some "tx9" → r.amount = 7)) := by
  decide

/-! Scenario for error propagation: user `w` has two credentials; the
provider fails for token `t1` and would deliver one added record for
token `t2`. -/

/-- The account of the failing credential `t1`. -/
def acctC1 : Account :=
  { id := "ac1", user_id := "w", access_token := "t1",
    plaid_account_id := "p1", account_type := "depository" }

/-- The account of the healthy credential `t2`. -/
def acctC2 : Account :=
  { id := "ac2", user_id := "w", access_token := "t2",
    plaid_account_id := "p2", account_type := "depository" }

/-- The record the healthy credential would deliver. -/
def txC2 : PlaidTx :=
  { transaction_id := "tz2", account_id := "p2", date := "2024-03-03",
    amount := 10, category := none, name := "Pay" }

/-- Environment of the error-propagation scenario: the provider is down
for token `t1` and healthy for token `t2`. -/
def envC : Env :=
  { provider := fun tok c =>
      if tok = "t2" ∧ c = none then
        .ok { added := [txC2], modified := [], removed := [],
              next_cursor := "cc", has_more := false }
      else .error ("provider down")
    accountsOk := true
    insertOk := fun _ => true
    updateOk := fun _ _ => true
    deleteOk := fun _ => true
    cursorOk := fun _ _ => true }

/-- Initial store of the error-propagation scenario. -/
def dbC : DB :=
  { accounts := [acctC1, acctC2], transactions := [], sync_cursors := [], cursorWrites := [] }

/-- C3: counterexample.  The claim says an error while syncing one
credential is caught, reported per credential, and does not abort the
others.  On this input the provider error of credential `t1` is thrown out
of `syncTransactions` (the call does not complete normally) and credential
`t2` is never processed: its added record is absent from the store. -/
theorem c3_counterexample_error_thrown :
    ¬ ((syncTransactions envC 1 ("w") dbC).isOk = true) ∧
    (syncTransactions envC 1 ("w") dbC).state.transactions = [] := by
  decide

/-- C2 (amended): for a matched record the added branch always inserts a
new row at the end of the table, whatever rows already exist, and the
modified branch overwrites the value columns of exactly the rows keyed by
the external transaction identifier and the resolved local account
identifier, inserting nothing.  The two branches are not the same upsert. -/
theorem c2_added_inserts_modified_updates (env : Env) (uid : String)
    (accounts : List Account) (a : Account) (tx : PlaidTx) (T : List TransactionRow)
    (hfind : findAccount accounts tx.account_id = some a) :
    (env.insertOk (mkRow uid a tx) = true →
      processAdded env uid accounts [tx] T = .ok (T ++ [mkRow uid a tx])) ∧
    (env.updateOk tx.transaction_id a.id = true →
      processModified env uid accounts [tx] T =
        .ok (T.map (fun r =>
          if r.plaid_transaction_id = some tx.transaction_id ∧ r.account_id = a.id
          then setVals r tx.date tx.amount (determineCategory tx a.account_type) tx.name
          else r))) := by
  constructor
  · intro h
    simp [processAdded, hfind, h]
  · intro h
    simp [processModified, hfind, h, updateTx]

/-- Witness for the amended C2 theorem at the upsert scenario. -/
theorem c2_added_inserts_modified_updates_witness :
    findAccount [acctB] (txB.account_id) = some acctB ∧
    envB.insertOk (mkRow ("v") acctB txB) = true ∧
    processAdded envB ("v") [acctB] [txB] [rowB] = .ok ([rowB] ++ [mkRow ("v") acctB txB]) :=
  ⟨by decide, by decide,
    (c2_added_inserts_modified_updates envB ("v") [acctB] acctB txB [rowB] (by decide)).1
      (by decide)⟩

/-- C3 (amended): an error raised while syncing a credential is thrown out
of the call: the token loop stops at the failing token, the remaining
tokens are not processed, and `syncTransactions` surfaces the same error
and state; there is no per-credential report. -/
theorem c3_credential_error_aborts_call (env : Env) (fuel : Nat) (uid t : String)
    (ts : List String) (m : String) (db : DB) (db2 : DB) :
    (syncCredential env fuel uid t (userAccounts db uid) db = .err m db2 →
      syncAllTokens env fuel uid (userAccounts db uid) (t :: ts) db = .err m db2) ∧
    (env.accountsOk = true →
      jsSetDedup ((userAccounts db uid).map (fun a => a.access_token)) = t :: ts →
      syncCredential env fuel uid t (userAccounts db uid) db = .err m db2 →
      syncTransactions env fuel uid db = .err m db2) := by
  constructor
  · intro h
    simp [syncAllTokens, h]
  · intro hacc hdedup h
    simp [syncTransactions, hacc, hdedup, syncAllTokens, h]

/-- Witness for the amended C3 theorem at the error-propagation scenario. -/
theorem c3_credential_error_aborts_call_witness :
    envC.accountsOk = true ∧
    jsSetDedup ((userAccounts dbC ("w")).map (fun a => a.access_token)) = ["t1", "t2"] ∧
    syncCredential envC 1 ("w") ("t1") (userAccounts dbC ("w")) dbC = .err ("provider down") dbC ∧
    syncTransactions envC 1 ("w") dbC = .err ("provider down") dbC :=
  ⟨by decide, by decide, by decide,
    (c3_credential_error_aborts_call envC 1 ("w") ("t1") [("t2")] ("provider down") dbC dbC).2
      (by decide) (by decide) (by decide)⟩

/-- The record carries a category label list that includes the label
Transfer (the source also requires the list to be non-null, which the
option encodes). -/
def hasTransferLabel (tx : PlaidTx) : Prop :=
  match tx.category with
  | some cats => "Transfer" ∈ cats
  | none => False

instance (tx : PlaidTx) : Decidable (hasTransferLabel tx) :=
  match h : tx.category with
  | some cats => decidable_of_iff ("Transfer" ∈ cats) (by simp [hasTransferLabel, h])
  | none => isFalse (by simp [hasTransferLabel, h])

/-- The Boolean transfer test of `determineCategory` holds exactly when
the record has a Transfer label. -/
lemma transfer_cond_iff (tx : PlaidTx) :
    ((match tx.category with
      | some cats => cats.contains ("Transfer")
      | none => false) = true) ↔ hasTransferLabel tx := by
  cases h : tx.category <;> simp [hasTransferLabel, h, List.elem_iff]

/-- C5: categorization.  A Transfer label forces category transfer for
every amount and account type; otherwise depository and investment
accounts map a strictly positive amount to income and a non-positive
amount to spending, credit accounts map the signs the other way round,
and every other account type maps to spending. -/
theorem c5_categorization (tx : PlaidTx) (ty : String) :
    (hasTransferLabel tx → determineCategory tx ty = "transfer") ∧
    (¬ hasTransferLabel tx → ty = "depository" ∨ ty = "investment" →
      ((0 < tx.amount → determineCategory tx ty = "income") ∧
       (tx.amount ≤ 0 → determineCategory tx ty = "spending"))) ∧
    (¬ hasTransferLabel tx → ty = "credit" →
      ((0 < tx.amount → determineCategory tx ty = "spending") ∧
       (tx.amount ≤ 0 → determineCategory tx ty = "income"))) ∧
    (¬ hasTransferLabel tx → ty ≠ "depository" → ty ≠ "investment" → ty ≠ "credit" →
      determineCategory tx ty = "spending") := by
  have hc := transfer_cond_iff tx
  by_cases ht : hasTransferLabel tx
  · refine ⟨fun _ => ?_, fun h _ => absurd ht h, fun h _ => absurd ht h,
      fun h _ _ _ => absurd ht h⟩
    unfold determineCategory
    rw [if_pos (hc.mpr ht)]
  · have hne : ¬ ((match tx.category with
        | some cats => cats.contains ("Transfer")
        | none => false) = true) := fun hv => ht (hc.mp hv)
    refine ⟨fun h => absurd h ht, fun _ hty => ?_, fun _ hty => ?_,
      fun _ h1 h2 h3 => ?_⟩
    · unfold determineCategory
      rw [if_neg hne, if_pos hty]
      exact ⟨fun ha => if_pos ha, fun ha => if_neg (not_lt.mpr ha)⟩
    · subst hty
      unfold determineCategory
      rw [if_neg hne, if_neg (by decide : ¬ (("credit" : String) = "depository" ∨
        ("credit" : String) = "investment")), if_pos rfl]
      exact ⟨fun ha => if_pos ha, fun ha => if_neg (not_lt.mpr ha)⟩
    · unfold determineCategory
      rw [if_neg hne, if_neg (fun hd => hd.elim h1 h2), if_neg h3]

/-- A record carrying a Transfer label, used to witness the transfer
branch of the categorization theorem. -/
def txT5 : PlaidTx :=
  { transaction_id := "t", account_id := "p", date := "d",
    amount := 3, category := some ["Transfer"], name := "x" }

/-- Witness for the categorization theorem: a positive amount on a credit
account is still categorized transfer when a Transfer label is present. -/
theorem c5_categorization_witness :
    hasTransferLabel txT5 ∧ determineCategory txT5 ("credit") = "transfer" :=
  ⟨by decide, (c5_categorization txT5 ("credit")).1 (by decide)⟩

/-- Rows satisfying a predicate that excludes every row the scoped delete
can match are exactly preserved by the delete, in content and order. -/
lemma deleteTx_filter_frame (p : TransactionRow → Bool) (rid : String)
    (ids : List String) (T : List TransactionRow)
    (hp : ∀ r, p r = true → ¬ (r.plaid_transaction_id = some rid ∧ r.account_id ∈ ids)) :
    (deleteTx T rid ids).filter p = T.filter p := by
  induction T with
  | nil => rfl
  | cons r T ih =>
    by_cases hr : r.plaid_transaction_id = some rid ∧ r.account_id ∈ ids
    · have hpr : p r = false := by
        cases hpv : p r
        · rfl
        · exact absurd hr (hp r hpv)
      have h1 : deleteTx (r :: T) rid ids = deleteTx T rid ids := by
        simp [deleteTx, List.filter_cons, hr]
      rw [h1, ih]
      simp [List.filter_cons, hpr]
    · have h1 : deleteTx (r :: T) rid ids = r :: deleteTx T rid ids := by
        simp [deleteTx, List.filter_cons, hr]
      rw [h1]
      cases hpv : p r <;> simp [List.filter_cons, hpv, ih]

/-- Rows satisfying a predicate that excludes every row any delete of the
removed loop can match are exactly preserved by the whole loop, also when
the loop aborts with a store error. -/
lemma processRemoved_filter_frame (env : Env) (ids : List String)
    (p : TransactionRow → Bool) :
    ∀ (removed : List String) (T : List TransactionRow),
      (∀ r rid, rid ∈ removed → p r = true →
        ¬ (r.plaid_transaction_id = some rid ∧ r.account_id ∈ ids)) →
      ((processRemoved env ids removed T).state).filter p = T.filter p := by
  intro removed
  induction removed with
  | nil => intro T _; rfl
  | cons rid rest ih =>
    intro T hp
    by_cases hd : env.deleteOk rid = true
    · have h1 : processRemoved env ids (rid :: rest) T =
          processRemoved env ids rest (deleteTx T rid ids) := by
        simp [processRemoved, hd]
      rw [h1, ih _ (fun r rid2 h2 hp2 => hp r rid2 (List.mem_cons_of_mem _ h2) hp2),
        deleteTx_filter_frame p rid ids T (fun r hpr => hp r rid (List.mem_cons_self _ _) hpr)]
    · have hd2 : env.deleteOk rid = false := by
        cases hv : env.deleteOk rid
        · rfl
        · exact absurd hv hd
      simp [processRemoved, hd2, Res.state]

/-- C6: scoped deletion.  While the removed records of a page are applied
for one access token, every row whose account does not belong to that
token is preserved, even when its external transaction identifier
coincides with a removed identifier, and every row whose external
identifier differs from all removed identifiers is preserved as well. -/
theorem c6_scoped_deletion (env : Env) (removed : List String) (tok : String)
    (accounts : List Account) (T : List TransactionRow) :
    (((processRemoved env (credentialAccountIds accounts tok) removed T).state).filter
        (fun r => decide (r.account_id ∉ credentialAccountIds accounts tok)) =
      T.filter (fun r => decide (r.account_id ∉ credentialAccountIds accounts tok))) ∧
    (((processRemoved env (credentialAccountIds accounts tok) removed T).state).filter
        (fun r => decide (∀ rid ∈ removed, r.plaid_transaction_id ≠ some rid)) =
      T.filter (fun r => decide (∀ rid ∈ removed, r.plaid_transaction_id ≠ some rid))) := by
  constructor
  · apply processRemoved_filter_frame
    intro r rid _ hpr
    have hout : r.account_id ∉ credentialAccountIds accounts tok := of_decide_eq_true hpr
    exact fun hcontr => hout hcontr.2
  · apply processRemoved_filter_frame
    intro r rid hrid hpr
    have hout := of_decide_eq_true hpr
    exact fun hcontr => hout rid hrid hcontr.1

/-- Dropping the unmatched records from an added set does not change the
added loop at all: unmatched records mutate nothing, raise nothing, and
the rest of the page is processed as if they were absent. -/
lemma processAdded_skip_unmatched (env : Env) (uid : String) (accounts : List Account) :
    ∀ (txs : List PlaidTx) (T : List TransactionRow),
      processAdded env uid accounts txs T =
        processAdded env uid accounts
          (txs.filter (fun tx => (findAccount accounts tx.account_id).isSome)) T := by
  intro txs
  induction txs with
  | nil => intro T; rfl
  | cons tx rest ih =>
    intro T
    cases hfa : findAccount accounts tx.account_id with
    | none => simp [processAdded, hfa, List.filter_cons, ih]
    | some a => simp [processAdded, hfa, List.filter_cons, ih]

/-- Dropping the unmatched records from a modified set does not change the
modified loop at all. -/
lemma processModified_skip_unmatched (env : Env) (uid : String) (accounts : List Account) :
    ∀ (txs : List PlaidTx) (T : List TransactionRow),
      processModified env uid accounts txs T =
        processModified env uid accounts
          (txs.filter (fun tx => (findAccount accounts tx.account_id).isSome)) T := by
  intro txs
  induction txs with
  | nil => intro T; rfl
  | cons tx rest ih =>
    intro T
    cases hfa : findAccount accounts tx.account_id with
    | none => simp [processModified, hfa, List.filter_cons, ih]
    | some a => simp [processModified, hfa, List.filter_cons, ih]

/-- C8: unmatched account skip.  An added or modified record whose external
account identifier resolves to no local account is silently skipped: both
loops behave exactly as if the page carried only the matched records. -/
theorem c8_unmatched_account_skip (env : Env) (uid : String) (accounts : List Account)
    (txs : List PlaidTx) (T : List TransactionRow) :
    (processAdded env uid accounts txs T =
      processAdded env uid accounts
        (txs.filter (fun tx => (findAccount accounts tx.account_id).isSome)) T) ∧
    (processModified env uid accounts txs T =
      processModified env uid accounts
        (txs.filter (fun tx => (findAccount accounts tx.account_id).isSome)) T) :=
  ⟨processAdded_skip_unmatched env uid accounts txs T,
   processModified_skip_unmatched env uid accounts txs T⟩

/-- A keyed update that matches no row leaves the table unchanged. -/
lemma updateTx_no_match (ptid aid : String) (d : String) (am : Rat) (c de : String) :
    ∀ (T : List TransactionRow),
      (∀ r ∈ T, ¬ (r.plaid_transaction_id = some ptid ∧ r.account_id = aid)) →
      updateTx T ptid aid d am c de = T := by
  intro T
  induction T with
  | nil => intro _; rfl
  | cons r T ih =>
    intro h
    unfold updateTx
    simp only [List.map_cons]
    rw [if_neg (h r (List.mem_cons_self r T))]
    have h2 := ih (fun r2 hm hc => h r2 (List.mem_cons_of_mem _ hm) hc)
    unfold updateTx at h2
    rw [h2]

/-- C9: a modified record whose external transaction identifier matches no
existing row of the resolved account leaves the store unchanged and raises
no error: the modified branch updates existing rows only and never inserts
a missing one. -/
theorem c9_modified_without_matching_row_is_noop (env : Env) (uid : String)
    (accounts : List Account) (tx : PlaidTx) (T : List TransactionRow)
    (h : match findAccount accounts tx.account_id with
         | none => True
         | some a => env.updateOk tx.transaction_id a.id = true ∧
             ∀ r ∈ T, ¬ (r.plaid_transaction_id = some tx.transaction_id ∧
               r.account_id = a.id)) :
    processModified env uid accounts [tx] T = .ok T := by
  cases hfa : findAccount accounts tx.account_id with
  | none => simp [processModified, hfa]
  | some a =>
    rw [hfa] at h
    obtain ⟨hup, hnone⟩ := h
    simp [processModified, hfa, hup,
      updateTx_no_match tx.transaction_id a.id tx.date tx.amount
        (determineCategory tx a.account_type) tx.name T hnone]

/-- A provider-sourced row whose external identifier differs from the one
of the modified record of the witness. -/
def rowC9 : TransactionRow :=
  { user_id := "v", account_id := "acc2", plaid_transaction_id := some "txOther",
    date := "2024-01-05", amount := 1, category := "spending", description := "Tea" }

/-- Witness for the modified no-op theorem: re-delivering `tx9` as
modified when only a row for a different identifier exists changes
nothing. -/
theorem c9_modified_without_matching_row_is_noop_witness :
    (envB.updateOk txB.transaction_id acctB.id = true ∧
      ∀ r ∈ [rowC9], ¬ (r.plaid_transaction_id = some txB.transaction_id ∧
        r.account_id = acctB.id)) ∧
    processModified envB ("v") [acctB] [txB] [rowC9] = .ok [rowC9] := by
  have hb : envB.updateOk txB.transaction_id acctB.id = true ∧
      ∀ r ∈ [rowC9], ¬ (r.plaid_transaction_id = some txB.transaction_id ∧
        r.account_id = acctB.id) := by decide
  exact ⟨hb, c9_modified_without_matching_row_is_noop envB ("v") [acctB] txB [rowC9] hb⟩

/-- Complete case analysis of `syncCredential`: either the paging loop
fails and the call throws with the cursor tables untouched, or the loop
succeeds and the call either persists the final cursor or throws on the
cursor write, again leaving the cursor tables untouched. -/
lemma syncCredential_cases (env : Env) (fuel : Nat) (uid tok : String)
    (accounts : List Account) (db : DB) :
    (∃ m c T, syncPages env uid tok accounts fuel
        (readCursor db.sync_cursors uid tok) db.transactions = .err m (c, T) ∧
      syncCredential env fuel uid tok accounts db =
        .err m { db with transactions := T }) ∨
    (∃ c T, syncPages env uid tok accounts fuel
        (readCursor db.sync_cursors uid tok) db.transactions = .ok (c, T) ∧
      ((env.cursorOk uid tok = true ∧
          syncCredential env fuel uid tok accounts db =
            .ok { db with
                  transactions := T
                  sync_cursors := upsertCursor db.sync_cursors uid tok c
                  cursorWrites := db.cursorWrites ++ [(uid, tok, c)] }) ∨
       (env.cursorOk uid tok = false ∧
          syncCredential env fuel uid tok accounts db =
            .err ("Failed to update sync cursor") { db with transactions := T }))) := by
  cases hp : syncPages env uid tok accounts fuel
      (readCursor db.sync_cursors uid tok) db.transactions with
  | err m p =>
    obtain ⟨c, T⟩ := p
    exact Or.inl ⟨m, c, T, rfl, by simp [syncCredential, hp]⟩
  | ok p =>
    obtain ⟨c, T⟩ := p
    refine Or.inr ⟨c, T, rfl, ?_⟩
    by_cases hcb : env.cursorOk uid tok = true
    · exact Or.inl ⟨hcb, by simp [syncCredential, hp, hcb]⟩
    · have hcf : env.cursorOk uid tok = false := by
        rcases Bool.eq_false_or_eq_true (env.cursorOk uid tok) with hv | hv
        · exact absurd hv hcb
        · exact hv
      exact Or.inr ⟨hcf, by simp [syncCredential, hp, hcf]⟩

/-- One credential run leaves the ghost write log unchanged or appends
exactly one entry, and that entry carries its own user and token. -/
lemma syncCredential_writes_shape (env : Env) (fuel : Nat) (uid tok : String)
    (accounts : List Account) (db : DB) :
    (syncCredential env fuel uid tok accounts db).state.cursorWrites = db.cursorWrites ∨
    ∃ c, (syncCredential env fuel uid tok accounts db).state.cursorWrites =
      db.cursorWrites ++ [(uid, tok, c)] := by
  rcases syncCredential_cases env fuel uid tok accounts db with
    ⟨m, c, T, _, he⟩ | ⟨c, T, _, (⟨_, he⟩ | ⟨_, he⟩)⟩
  · rw [he]; exact Or.inl rfl
  · rw [he]; exact Or.inr ⟨c, rfl⟩
  · rw [he]; exact Or.inl rfl

/-- Number of entries of the ghost write log that belong to one
`(user, access token)` pair. -/
def countWrites (uid tok : String) (l : List (String × String × Option String)) : Nat :=
  (l.filter (fun w => decide (w.1 = uid ∧ w.2.1 = tok))).length

lemma countWrites_append (uid tok : String) (l1 l2 : List (String × String × Option String)) :
    countWrites uid tok (l1 ++ l2) = countWrites uid tok l1 + countWrites uid tok l2 := by
  simp [countWrites, List.filter_append]

lemma countWrites_single_le (uid tok u2 t2 : String) (c : Option String) :
    countWrites uid tok [(u2, t2, c)] ≤ if t2 = tok then 1 else 0 := by
  by_cases ht : t2 = tok
  · by_cases hu : u2 = uid <;> simp [countWrites, ht, hu]
  · simp [countWrites, ht]

lemma count_cons_eq (t tok : String) (ts : List String) :
    (t :: ts).count tok = ts.count tok + (if t = tok then 1 else 0) := by
  by_cases h : t = tok <;> simp [List.count_cons, h]

/-- Across the token loop, the write log gains at most one entry per
occurrence of a token in the processed list. -/
lemma syncAllTokens_countWrites (env : Env) (fuel : Nat) (uid tok : String)
    (accounts : List Account) :
    ∀ (toks : List String) (db : DB),
      countWrites uid tok (syncAllTokens env fuel uid accounts toks db).state.cursorWrites ≤
        countWrites uid tok db.cursorWrites + toks.count tok := by
  intro toks
  induction toks with
  | nil => intro db; simp [syncAllTokens, Res.state]
  | cons t ts ih =>
    intro db
    have hshape := syncCredential_writes_shape env fuel uid t accounts db
    have hone : countWrites uid tok
        (syncCredential env fuel uid t accounts db).state.cursorWrites ≤
        countWrites uid tok db.cursorWrites + (if t = tok then 1 else 0) := by
      rcases hshape with hs | ⟨c, hs⟩
      · rw [hs]; omega
      · rw [hs, countWrites_append]
        have hle := countWrites_single_le uid tok uid t c
        omega
    cases hcred : syncCredential env fuel uid t accounts db with
    | ok db2 =>
      have h1 : syncAllTokens env fuel uid accounts (t :: ts) db =
          syncAllTokens env fuel uid accounts ts db2 := by
        simp [syncAllTokens, hcred]
      rw [hcred] at hone
      have h2 := ih db2
      rw [h1, count_cons_eq]
      simp [Res.state] at hone
      omega
    | err m db2 =>
      have h1 : syncAllTokens env fuel uid accounts (t :: ts) db = .err m db2 := by
        simp [syncAllTokens, hcred]
      rw [hcred] at hone
      rw [h1, count_cons_eq]
      simp [Res.state] at hone ⊢
      omega

lemma jsSetDedupAux_count (tok : String) :
    ∀ (l : List String) (seen : List String),
      (jsSetDedupAux seen l).count tok ≤ 1 ∧
      (tok ∈ seen → (jsSetDedupAux seen l).count tok = 0) := by
  intro l
  induction l with
  | nil => intro seen; simp [jsSetDedupAux]
  | cons x xs ih =>
    intro seen
    by_cases hx : x ∈ seen
    · simpa [jsSetDedupAux, hx] using ih seen
    · simp only [jsSetDedupAux, if_neg hx]
      constructor
      · by_cases hxt : x = tok
        · subst hxt
          have h0 : (jsSetDedupAux (x :: seen) xs).count x = 0 :=
            (ih (x :: seen)).2 (List.mem_cons_self _ _)
          rw [count_cons_eq]
          simp [h0]
        · rw [count_cons_eq]
          have := (ih (x :: seen)).1
          simp [hxt]
          omega
      · intro hseen
        rw [count_cons_eq]
        have h0 : (jsSetDedupAux (x :: seen) xs).count tok = 0 :=
          (ih (x :: seen)).2 (List.mem_cons_of_mem _ hseen)
        have hxt : x ≠ tok := fun he => hx (he ▸ hseen)
        simp [h0, hxt]

/-- A deduplicated token list holds each token at most once. -/
lemma jsSetDedup_count_le_one (tok : String) (l : List String) :
    (jsSetDedup l).count tok ≤ 1 :=
  (jsSetDedupAux_count tok l []).1

/-- C4: cursor persistence atomicity.  When a credential run throws (any
provider failure, any record-write failure in any page, or a cursor-write
failure), the persisted cursors and the write log are left exactly as they
were; when it succeeds, the whole paging loop succeeded and the final page
cursor was persisted with exactly one logged write; and over a whole
`syncTransactions` call any `(user, token)` pair gains at most one cursor
write. -/
theorem c4_cursor_atomicity (env : Env) (fuel : Nat) (uid tok : String)
    (accounts : List Account) (db : DB) :
    ((syncCredential env fuel uid tok accounts db).isOk = false →
      (syncCredential env fuel uid tok accounts db).state.sync_cursors = db.sync_cursors ∧
      (syncCredential env fuel uid tok accounts db).state.cursorWrites = db.cursorWrites) ∧
    ((syncCredential env fuel uid tok accounts db).isOk = true →
      ∃ c T, syncPages env uid tok accounts fuel (readCursor db.sync_cursors uid tok)
          db.transactions = .ok (c, T) ∧
        (syncCredential env fuel uid tok accounts db).state =
          { db with
            transactions := T
            sync_cursors := upsertCursor db.sync_cursors uid tok c
            cursorWrites := db.cursorWrites ++ [(uid, tok, c)] }) ∧
    (∀ db0 : DB,
      countWrites uid tok (syncTransactions env fuel uid db0).state.cursorWrites ≤
        countWrites uid tok db0.cursorWrites + 1) := by
  refine ⟨?_, ?_, ?_⟩
  · intro h
    rcases syncCredential_cases env fuel uid tok accounts db with
      ⟨m, c, T, hp, he⟩ | ⟨c, T, hp, (⟨hc, he⟩ | ⟨hc, he⟩)⟩
    · rw [he]; exact ⟨rfl, rfl⟩
    · rw [he] at h; simp [Res.isOk] at h
    · rw [he]; exact ⟨rfl, rfl⟩
  · intro h
    rcases syncCredential_cases env fuel uid tok accounts db with
      ⟨m, c, T, hp, he⟩ | ⟨c, T, hp, (⟨hc, he⟩ | ⟨hc, he⟩)⟩
    · rw [he] at h; simp [Res.isOk] at h
    · exact ⟨c, T, hp, by rw [he]; rfl⟩
    · rw [he] at h; simp [Res.isOk] at h
  · intro db0
    by_cases hacc : env.accountsOk = true
    · have hmain := syncAllTokens_countWrites env fuel uid tok (userAccounts db0 uid)
        (jsSetDedup ((userAccounts db0 uid).map (fun a => a.access_token))) db0
      have hcount := jsSetDedup_count_le_one tok
        ((userAccounts db0 uid).map (fun a => a.access_token))
      have heq : syncTransactions env fuel uid db0 =
          syncAllTokens env fuel uid (userAccounts db0 uid)
            (jsSetDedup ((userAccounts db0 uid).map (fun a => a.access_token))) db0 := by
        simp [syncTransactions, hacc]
      rw [heq]; omega
    · have hacc2 : env.accountsOk = false := by
        rcases Bool.eq_false_or_eq_true env.accountsOk with hv | hv
        · exact absurd hv hacc
        · exact hv
      simp [syncTransactions, hacc2, Res.state]

/-- Witness for the cursor atomicity theorem: a provider failure on
credential `t1` leaves the persisted cursors untouched. -/
theorem c4_cursor_atomicity_witness :
    (syncCredential envC 1 ("w") ("t1") [acctC1] dbC).isOk = false ∧
    (syncCredential envC 1 ("w") ("t1") [acctC1] dbC).state.sync_cursors = dbC.sync_cursors :=
  ⟨by decide, ((c4_cursor_atomicity envC 1 ("w") ("t1") [acctC1] dbC).1 (by decide)).1⟩

lemma bool_eq_false_of_not {b : Bool} (h : ¬ b = true) : b = false := by
  rcases Bool.eq_false_or_eq_true b with hv | hv
  · exact absurd hv h
  · exact hv

/-- A row is manually entered when it carries no external identifier. -/
def isManual (r : TransactionRow) : Bool :=
  decide (r.plaid_transaction_id = none)

/-- The manually entered rows of the table, in order. -/
def manualRows (T : List TransactionRow) : List TransactionRow :=
  T.filter isManual

lemma manualRows_append_row (T : List TransactionRow) (row : TransactionRow)
    (h : isManual row = false) : manualRows (T ++ [row]) = manualRows T := by
  simp [manualRows, List.filter_append, h]

lemma isManual_mkRow (uid : String) (a : Account) (tx : PlaidTx) :
    isManual (mkRow uid a tx) = false := by
  simp [isManual, mkRow]

/-- A map whose function preserves a predicate and fixes every row
satisfying it leaves the filtered sublist unchanged. -/
lemma filter_map_fixed (f : TransactionRow → TransactionRow)
    (p : TransactionRow → Bool)
    (hf : ∀ r, p (f r) = p r) (hid : ∀ r, p r = true → f r = r) :
    ∀ T : List TransactionRow, (T.map f).filter p = T.filter p := by
  intro T
  induction T with
  | nil => rfl
  | cons r T ih =>
    simp only [List.map_cons, List.filter_cons]
    cases hp : p r
    · simp [hf r, hp, ih]
    · simp [hf r, hp, ih, hid r hp]

/-- The keyed update never touches a manual row: its match requires a
present external identifier and the overwrite keeps the identifier. -/
lemma manualRows_updateTx (ptid aid : String) (d : String) (am : Rat) (c de : String)
    (T : List TransactionRow) :
    manualRows (updateTx T ptid aid d am c de) = manualRows T := by
  unfold manualRows updateTx
  apply filter_map_fixed
  · intro r
    by_cases hc : r.plaid_transaction_id = some ptid ∧ r.account_id = aid
    · rw [if_pos hc]
      simp [isManual, setVals]
    · rw [if_neg hc]
  · intro r hp
    have h0 : r.plaid_transaction_id = none := of_decide_eq_true hp
    rw [if_neg (fun hc => by rw [h0] at hc; exact Option.noConfusion hc.1)]

/-- The added loop never touches a manual row. -/
lemma processAdded_manual (env : Env) (uid : String) (accounts : List Account) :
    ∀ (txs : List PlaidTx) (T : List TransactionRow),
      manualRows ((processAdded env uid accounts txs T).state) = manualRows T := by
  intro txs
  induction txs with
  | nil => intro T; rfl
  | cons tx rest ih =>
    intro T
    cases hfa : findAccount accounts tx.account_id with
    | none => simp [processAdded, hfa, ih]
    | some a =>
      by_cases hins : env.insertOk (mkRow uid a tx) = true
      · have h1 : processAdded env uid accounts (tx :: rest) T =
            processAdded env uid accounts rest (T ++ [mkRow uid a tx]) := by
          simp [processAdded, hfa, hins]
        rw [h1, ih, manualRows_append_row T _ (isManual_mkRow uid a tx)]
      · simp [processAdded, hfa, bool_eq_false_of_not hins, Res.state]

/-- The modified loop never touches a manual row. -/
lemma processModified_manual (env : Env) (uid : String) (accounts : List Account) :
    ∀ (txs : List PlaidTx) (T : List TransactionRow),
      manualRows ((processModified env uid accounts txs T).state) = manualRows T := by
  intro txs
  induction txs with
  | nil => intro T; rfl
  | cons tx rest ih =>
    intro T
    cases hfa : findAccount accounts tx.account_id with
    | none => simp [processModified, hfa, ih]
    | some a =>
      by_cases hup : env.updateOk tx.transaction_id a.id = true
      · have h1 : processModified env uid accounts (tx :: rest) T =
            processModified env uid accounts rest
              (updateTx T tx.transaction_id a.id tx.date tx.amount
                (determineCategory tx a.account_type) tx.name) := by
          simp [processModified, hfa, hup]
        rw [h1, ih, manualRows_updateTx]
      · simp [processModified, hfa, bool_eq_false_of_not hup, Res.state]

/-- The removed loop never touches a manual row. -/
lemma processRemoved_manual (env : Env) (ids : List String)
    (removed : List String) (T : List TransactionRow) :
    manualRows ((processRemoved env ids removed T).state) = manualRows T :=
  processRemoved_filter_frame env ids isManual removed T
    (fun r _ _ hpr hc => by
      have h0 : r.plaid_transaction_id = none := of_decide_eq_true hpr
      rw [h0] at hc
      exact Option.noConfusion hc.1)

/-- The paging loop never touches a manual row, whether it succeeds or
aborts at any point. -/
lemma syncPages_manual (env : Env) (uid tok : String) (accounts : List Account) :
    ∀ (fuel : Nat) (cursor : Option String) (T : List TransactionRow),
      manualRows ((syncPages env uid tok accounts fuel cursor T).state).2 = manualRows T := by
  intro fuel
  induction fuel with
  | zero => intro cursor T; rfl
  | succ fuel ih =>
    intro cursor T
    cases hprov : env.provider tok cursor with
    | error m => simp [syncPages, hprov, Res.state]
    | ok page =>
      have ha := processAdded_manual env uid accounts page.added T
      cases hadd : processAdded env uid accounts page.added T with
      | err m T2 =>
        rw [hadd] at ha
        simp only [Res.state] at ha
        simp only [syncPages, hprov, hadd, Res.state]
        exact ha
      | ok T2 =>
        rw [hadd] at ha
        simp only [Res.state] at ha
        have hm := processModified_manual env uid accounts page.modified T2
        cases hmod : processModified env uid accounts page.modified T2 with
        | err m T3 =>
          rw [hmod] at hm
          simp only [Res.state] at hm
          simp only [syncPages, hprov, hadd, hmod, Res.state]
          rw [hm]; exact ha
        | ok T3 =>
          rw [hmod] at hm
          simp only [Res.state] at hm
          have hr := processRemoved_manual env (credentialAccountIds accounts tok)
            page.removed T3
          cases hrem : processRemoved env (credentialAccountIds accounts tok)
              page.removed T3 with
          | err m T4 =>
            rw [hrem] at hr
            simp only [Res.state] at hr
            simp only [syncPages, hprov, hadd, hmod, hrem, Res.state]
            rw [hr, hm]; exact ha
          | ok T4 =>
            rw [hrem] at hr
            simp only [Res.state] at hr
            by_cases hmore : page.has_more = true
            · have h1 : syncPages env uid tok accounts (fuel + 1) cursor T =
                  syncPages env uid tok accounts fuel (some page.next_cursor) T4 := by
                simp [syncPages, hprov, hadd, hmod, hrem, hmore]
              rw [h1, ih (some page.next_cursor) T4, hr, hm]; exact ha
            · simp only [syncPages, hprov, hadd, hmod, hrem,
                bool_eq_false_of_not hmore, Bool.false_eq_true, if_false, Res.state]
              rw [hr, hm]; exact ha

/-- One credential run never touches a manual row. -/
lemma syncCredential_manual (env : Env) (fuel : Nat) (uid tok : String)
    (accounts : List Account) (db : DB) :
    manualRows ((syncCredential env fuel uid tok accounts db).state.transactions) =
      manualRows db.transactions := by
  have hp0 := syncPages_manual env uid tok accounts fuel
    (readCursor db.sync_cursors uid tok) db.transactions
  rcases syncCredential_cases env fuel uid tok accounts db with
    ⟨m, c, T, hp, he⟩ | ⟨c, T, hp, (⟨hc, he⟩ | ⟨hc, he⟩)⟩
  · rw [hp] at hp0; rw [he]; exact hp0
  · rw [hp] at hp0; rw [he]; exact hp0
  · rw [hp] at hp0; rw [he]; exact hp0

/-- The token loop never touches a manual row. -/
lemma syncAllTokens_manual (env : Env) (fuel : Nat) (uid : String)
    (accounts : List Account) :
    ∀ (toks : List String) (db : DB),
      manualRows ((syncAllTokens env fuel uid accounts toks db).state.transactions) =
        manualRows db.transactions := by
  intro toks
  induction toks with
  | nil => intro db; rfl
  | cons t ts ih =>
    intro db
    have hcredm := syncCredential_manual env fuel uid t accounts db
    cases hcred : syncCredential env fuel uid t accounts db with
    | ok db2 =>
      rw [hcred] at hcredm
      have h1 : syncAllTokens env fuel uid accounts (t :: ts) db =
          syncAllTokens env fuel uid accounts ts db2 := by
        simp [syncAllTokens, hcred]
      rw [h1, ih db2]; exact hcredm
    | err m db2 =>
      rw [hcred] at hcredm
      simp only [syncAllTokens, hcred, Res.state]
      exact hcredm

/-- C10: manual rows are untouched.  For every environment, fuel, user and
store, the list of manually entered rows (no external identifier) is the
same before and after `syncTransactions`, whether the call succeeds or
throws: every insert carries an external identifier and every update or
delete is keyed on one. -/
theorem c10_manual_rows_untouched (env : Env) (fuel : Nat) (uid : String) (db : DB) :
    manualRows ((syncTransactions env fuel uid db).state.transactions) =
      manualRows db.transactions := by
  by_cases hacc : env.accountsOk = true
  · have heq : syncTransactions env fuel uid db =
        syncAllTokens env fuel uid (userAccounts db uid)
          (jsSetDedup ((userAccounts db uid).map (fun a => a.access_token))) db := by
      simp [syncTransactions, hacc]
    rw [heq]
    exact syncAllTokens_manual env fuel uid (userAccounts db uid) _ db
  · simp [syncTransactions, bool_eq_false_of_not hacc, Res.state]

end BudgetApp
